import Mathlib

/-
Verification of the reboot coordination logic of kube-controller-demo:
a reboot controller (reboot-controller) that approves node reboots while
keeping the number of unavailable nodes below a threshold, and a per-node
reboot agent (reboot-agent) that performs the reboot via an
annotation-encoded state machine on the Node object.

The embedding models Go values shallowly: a Go map[string]string is an
association list with key-unique update (setAnn deletes the old binding
before consing the new one, which matches Go map assignment semantics);
a possibly-nil map is an Option; the unchecked Go type assertion
obj.(*v1.Node) is a CopyOutcome.panicked / CtrlOutcome.crash result on a
non-Node input; fallible external calls (deep copy, Nodes().Update) are
modelled by Boolean success parameters supplied by the environment.
-/

namespace RebootDemo

/-- Go map[string]string (annotation maps), as an association list. -/
abbrev AnnMap := List (String × String)

/-- Key membership, `_, ok := m[k]` in Go. -/
def hasKey (m : AnnMap) (k : String) : Bool :=
  m.any (fun p => p.1 == k)

/-- Go `delete(m, k)`. -/
def delAnn (m : AnnMap) (k : String) : AnnMap :=
  m.filter (fun p => p.1 != k)

/-- Go `m[k] = v`: key-unique insertion. -/
def setAnn (m : AnnMap) (k v : String) : AnnMap :=
  (k, v) :: delAnn m k

/-- One entry of v1.Node.Status.Conditions: a (Type, Status) pair. -/
structure NodeCondition where
  condType : String
  status : String
deriving DecidableEq, Repr

/-- The fields of v1.Node that the reboot controller and agent read or write:
the name, the annotation map (nil in Go is `none` here), and the status
conditions. -/
structure Node where
  name : String
  annotations : Option AnnMap
  conditions : List NodeCondition
deriving DecidableEq, Repr

/-- Modelled from the spec: the three annotation keys are constants of the
common package whose defining file is not under src (the sources reference
common.RebootNeededAnnotation and friends); the spec names the states
needs-reboot, reboot and reboot-in-progress. Only their identity and pairwise
distinctness matter. -/
def rebootNeededKey : String := "needs-reboot"

/-- Modelled from the spec: common package key for the reboot (approved) state. -/
def rebootKey : String := "reboot"

/-- Modelled from the spec: common package key for the reboot-in-progress state. -/
def rebootInProgressKey : String := "reboot-in-progress"

/-- The v1.NodeReady condition type (client-go library constant). -/
def nodeReadyCond : String := "Ready"

/-- The v1.ConditionFalse condition status (client-go library constant). -/
def conditionFalse : String := "False"

/-- The reboot-controller constant `maxUnavailable = 1`. -/
def maxUnavailable : Nat := 1

/-- Lookup `_, ok := n.Annotations[k]` on a node whose map may be nil
(a Go lookup on a nil map yields the zero value, i.e. false). -/
def nodeHasKey (n : Node) (k : String) : Bool :=
  match n.annotations with
  | none => false
  | some m => hasKey m k

/-- The reboot-controller nodeIsRebooting check: nil annotations means not rebooting;
otherwise the node is rebooting when it carries reboot-in-progress, or else
when it carries reboot. -/
def nodeIsRebooting (n : Node) : Bool :=
  match n.annotations with
  | none => false
  | some m =>
      if hasKey m rebootInProgressKey then true
      else hasKey m rebootKey

/-- The inner loop of unavailableNodeCount: one increment per condition with
Type == NodeReady and Status == ConditionFalse. -/
def notReadyConditionCount (n : Node) : Nat :=
  (n.conditions.filter
    (fun c => c.condType == nodeReadyCond && c.status == conditionFalse)).length

/-- Contribution of a single node to the unavailable count: 1 if it is
rebooting (then `continue`), otherwise one per not-ready condition. -/
def nodeUnavailableWeight (n : Node) : Nat :=
  if nodeIsRebooting n then 1 else notReadyConditionCount n

/-- The reboot-controller unavailableNodeCount scan over a lister snapshot. The
storeToNodeLister.List shim always returns a nil error, so the error branch
of the Go function is dead and elided. -/
def unavailableNodeCount (nodes : List Node) : Nat :=
  nodes.foldl (fun acc n => acc + nodeUnavailableWeight n) 0

/-- A handler argument: either a *v1.Node or some other dynamic type
(e.g. a cache.DeletedFinalStateUnknown tombstone). -/
inductive Obj where
  | node (n : Node)
  | other
deriving DecidableEq, Repr

/-- Result of common.CopyObjToNode: the unchecked type assertion panics on a
non-Node input; api.Scheme.Copy may return an error, which the function
propagates; on success the copy has a non-nil annotation map. -/
inductive CopyOutcome where
  | panicked
  | copyErr
  | ok (n : Node)
deriving DecidableEq, Repr

/-- The nil-map normalization CopyObjToNode performs on the copy. -/
def normalizeNode (n : Node) : Node :=
  { n with annotations := some (n.annotations.getD []) }

/-- The common.CopyObjToNode function. `deepCopyOk` is the environment's answer for the
api.Scheme.Copy call; the type assertion obj.(*v1.Node) is evaluated first
and panics on a non-Node input. -/
def CopyObjToNode (deepCopyOk : Bool) : Obj → CopyOutcome
  | Obj.other => CopyOutcome.panicked
  | Obj.node n =>
      if deepCopyOk then CopyOutcome.ok (normalizeNode n)
      else CopyOutcome.copyErr

/-- Annotation write on a node value (always applied to copies, whose map is
non-nil). -/
def setAnnN (n : Node) (k v : String) : Node :=
  { n with annotations := some (setAnn (n.annotations.getD []) k v) }

/-- Annotation delete on a node value. -/
def delAnnN (n : Node) (k : String) : Node :=
  { n with annotations := some (delAnn (n.annotations.getD []) k) }

/-- Observable outcome of one controller handler invocation: a panic, a
return without calling Nodes().Update, or a call Nodes().Update(n). -/
inductive CtrlOutcome where
  | crash
  | skip
  | update (n : Node)
deriving DecidableEq, Repr

/-- The rebootController.handler body. `snapshot` is the lister's view of all nodes;
`deepCopyOk` is the environment's answer for common.CopyObjToNode's deep
copy. The unchecked assertion `node := obj.(*v1.Node)` panics on non-Node
input. Whether the issued update later succeeds does not change the
handler's behaviour (a failure is only logged), so the outcome carries the
update payload. -/
def handlerNode (deepCopyOk : Bool) (node : Node) (snapshot : List Node) : CtrlOutcome :=
  match node.annotations with
  | none => CtrlOutcome.skip
  | some anns =>
      if !(hasKey anns rebootNeededKey) then CtrlOutcome.skip
      else if maxUnavailable ≤ unavailableNodeCount snapshot then CtrlOutcome.skip
      else
        match CopyObjToNode deepCopyOk (Obj.node node) with
        | CopyOutcome.panicked => CtrlOutcome.crash
        | CopyOutcome.copyErr => CtrlOutcome.skip
        | CopyOutcome.ok nodeCopy =>
            CtrlOutcome.update (setAnnN nodeCopy rebootKey "")

/-- Entry point of rebootController.handler: the unchecked assertion
`node := obj.(*v1.Node)` panics on a non-Node input, then handlerNode runs. -/
def handler (deepCopyOk : Bool) (obj : Obj) (snapshot : List Node) : CtrlOutcome :=
  match obj with
  | Obj.other => CtrlOutcome.crash
  | Obj.node node => handlerNode deepCopyOk node snapshot

/-- The reboot-agent shouldReboot predicate: reboot present and reboot-in-progress absent. -/
def shouldReboot (node : Node) : Bool :=
  nodeHasKey node rebootKey && !(nodeHasKey node rebootInProgressKey)

/-- The reboot-agent rebootInProgress predicate. -/
def rebootInProgress (node : Node) : Bool :=
  nodeHasKey node rebootInProgressKey

/-- External calls the agent handler can issue, in order:
Nodes().Update(n) and dbusConn.Reboot. -/
inductive AgentEvent where
  | updateCall (n : Node)
  | rebootCall
deriving DecidableEq, Repr

/-- Observable outcome of one agent handler invocation: a panic, or the
ordered list of external calls it issued (after a successful reboot call the
process blocks in `select {}`; the trace simply ends there). -/
inductive AgentOutcome where
  | crash
  | ran (events : List AgentEvent)
deriving DecidableEq, Repr

/-- The node the agent writes when it begins a reboot: set
reboot-in-progress, clear needs-reboot, clear reboot — in source order. -/
def agentRebootPayload (node : Node) : Node :=
  delAnnN (delAnnN (setAnnN node rebootInProgressKey "") rebootNeededKey) rebootKey

/-- The rebootAgent.handleUpdate function (only newObj is used). `updateOk` is the
environment's answer for the Nodes().Update call: in the should-reboot
branch a failed update aborts without rebooting, a successful one is
followed by the reboot call; in the in-progress branch the update's result
only affects logging. -/
def handleUpdate (deepCopyOk updateOk : Bool) (newObj : Obj) : AgentOutcome :=
  match CopyObjToNode deepCopyOk newObj with
  | CopyOutcome.panicked => AgentOutcome.crash
  | CopyOutcome.copyErr => AgentOutcome.ran []
  | CopyOutcome.ok node =>
      if shouldReboot node then
        if updateOk then
          AgentOutcome.ran
            [AgentEvent.updateCall (agentRebootPayload node), AgentEvent.rebootCall]
        else
          AgentOutcome.ran [AgentEvent.updateCall (agentRebootPayload node)]
      else if rebootInProgress node then
        AgentOutcome.ran [AgentEvent.updateCall (delAnnN node rebootInProgressKey)]
      else
        AgentOutcome.ran []

/-- The external calls of an agent outcome (a crash issued none beyond the
point of the panic, which here is before any call). -/
def outcomeEvents : AgentOutcome → List AgentEvent
  | AgentOutcome.crash => []
  | AgentOutcome.ran es => es

/-- Events the informer delivers to the reconciling cache. -/
inductive NodeEvent where
  | add (n : Node)
  | update (n : Node)
  | delete (name : String)
deriving DecidableEq, Repr

/-- The informer's cache.Store, keyed by node name. -/
abbrev Store := List (String × Node)

/-- Insert-or-replace by name. -/
def storeSet (s : Store) (n : Node) : Store :=
  (n.name, n) :: s.filter (fun p => p.1 != n.name)

/-- Effect of one watch event on the cache.Store. -/
def applyEvent (s : Store) : NodeEvent → Store
  | NodeEvent.add n => storeSet s n
  | NodeEvent.update n => storeSet s n
  | NodeEvent.delete nm => s.filter (fun p => p.1 != nm)

/-- Effect of a sequence of watch events. -/
def applyEvents (es : List NodeEvent) (s : Store) : Store :=
  es.foldl applyEvent s

/-- The storeToNodeLister.List shim: the cached node objects. -/
def storeList (s : Store) : List Node :=
  s.map (fun p => p.2)

/-- Spec-side unavailability predicate, written from the spec's words: the
node carries reboot-in-progress, or carries reboot, or reports a NodeReady
condition with status False. -/
def specUnavailable (n : Node) : Bool :=
  nodeHasKey n rebootInProgressKey || nodeHasKey n rebootKey ||
    n.conditions.any (fun c => c.condType == nodeReadyCond && c.status == conditionFalse)

/-- The state-machine legality invariant: reboot and reboot-in-progress are
never simultaneously present on one node. -/
def legalNode (n : Node) : Prop :=
  ¬ (nodeHasKey n rebootKey = true ∧ nodeHasKey n rebootInProgressKey = true)

instance (n : Node) : Decidable (legalNode n) :=
  inferInstanceAs (Decidable (¬ (nodeHasKey n rebootKey = true ∧
    nodeHasKey n rebootInProgressKey = true)))

/-! Helper lemmas about annotation maps. -/

lemma hasKey_delAnn_iff (m : AnnMap) (k k' : String) :
    hasKey (delAnn m k) k' = true ↔ k' ≠ k ∧ hasKey m k' = true := by
  simp only [hasKey, delAnn, List.any_eq_true, List.mem_filter, bne_iff_ne, beq_iff_eq]
  constructor
  · rintro ⟨p, ⟨hm, hne⟩, hk⟩
    exact ⟨hk ▸ hne, p, hm, hk⟩
  · rintro ⟨hne, p, hm, hk⟩
    exact ⟨p, ⟨hm, hk ▸ hne⟩, hk⟩

lemma hasKey_setAnn_iff (m : AnnMap) (k v k' : String) :
    hasKey (setAnn m k v) k' = true ↔ k' = k ∨ hasKey m k' = true := by
  have hd := hasKey_delAnn_iff m k k'
  simp only [setAnn, hasKey, List.any_cons, Bool.or_eq_true, beq_iff_eq] at hd ⊢
  constructor
  · rintro (rfl | h)
    · exact Or.inl rfl
    · exact Or.inr (hd.mp h).2
  · rintro (rfl | h)
    · exact Or.inl rfl
    · by_cases hk : k' = k
      · exact Or.inl hk.symm
      · exact Or.inr (hd.mpr ⟨hk, h⟩)

lemma nodeHasKey_getD (n : Node) (k : String) :
    nodeHasKey n k = hasKey (n.annotations.getD []) k := by
  cases h : n.annotations <;> simp [nodeHasKey, h, hasKey]

lemma nodeHasKey_delAnnN_iff (n : Node) (k k' : String) :
    nodeHasKey (delAnnN n k) k' = true ↔ k' ≠ k ∧ nodeHasKey n k' = true := by
  rw [show nodeHasKey (delAnnN n k) k'
        = hasKey (delAnn (n.annotations.getD []) k) k' from rfl,
      nodeHasKey_getD]
  exact hasKey_delAnn_iff _ _ _

lemma nodeHasKey_setAnnN_iff (n : Node) (k v k' : String) :
    nodeHasKey (setAnnN n k v) k' = true ↔ k' = k ∨ nodeHasKey n k' = true := by
  rw [show nodeHasKey (setAnnN n k v) k'
        = hasKey (setAnn (n.annotations.getD []) k v) k' from rfl,
      nodeHasKey_getD]
  exact hasKey_setAnn_iff _ _ _ _

lemma nodeHasKey_normalizeNode (n : Node) (k : String) :
    nodeHasKey (normalizeNode n) k = nodeHasKey n k := by
  rw [show nodeHasKey (normalizeNode n) k
        = hasKey (n.annotations.getD []) k from rfl, nodeHasKey_getD]

lemma nodeIsRebooting_iff (n : Node) :
    nodeIsRebooting n = true ↔
      nodeHasKey n rebootInProgressKey = true ∨ nodeHasKey n rebootKey = true := by
  cases h : n.annotations with
  | none => simp [nodeIsRebooting, nodeHasKey, h]
  | some m =>
      simp only [nodeIsRebooting, nodeHasKey, h]
      by_cases hip : hasKey m rebootInProgressKey
      · simp [hip]
      · simp [hip]

/-! Helper lemmas about the unavailable count. -/

lemma foldl_add_weight (l : List Node) (a : Nat) :
    l.foldl (fun acc n => acc + nodeUnavailableWeight n) a
      = a + (l.map nodeUnavailableWeight).sum := by
  induction l generalizing a with
  | nil => simp
  | cons x xs ih => simp [List.foldl_cons, ih, Nat.add_assoc]

lemma unavailableNodeCount_eq_sum (l : List Node) :
    unavailableNodeCount l = (l.map nodeUnavailableWeight).sum := by
  simpa using foldl_add_weight l 0

lemma unavailableNodeCount_perm {l₁ l₂ : List Node} (h : l₁.Perm l₂) :
    unavailableNodeCount l₁ = unavailableNodeCount l₂ := by
  rw [unavailableNodeCount_eq_sum, unavailableNodeCount_eq_sum]
  exact (h.map nodeUnavailableWeight).sum_eq

lemma weight_le_count {n : Node} {l : List Node} (h : n ∈ l) :
    nodeUnavailableWeight n ≤ unavailableNodeCount l := by
  rw [unavailableNodeCount_eq_sum]
  exact List.single_le_sum (fun x _ => Nat.zero_le x) _
    (List.mem_map_of_mem nodeUnavailableWeight h)

lemma length_le_one_of_nodup_const {α : Type} {l : List α} {c : α}
    (hn : l.Nodup) (hc : ∀ x ∈ l, x = c) : l.length ≤ 1 := by
  match l with
  | [] => simp
  | [a] => simp
  | a :: b :: t =>
      exfalso
      have ha : a = c := hc a (by simp)
      have hb : b = c := hc b (by simp)
      have : a ≠ b := by
        intro hab
        exact (List.nodup_cons.mp hn).1 (hab ▸ List.mem_cons_self b t)
      exact this (ha.trans hb.symm)

lemma weight_eq_of_nodup (n : Node) (h : n.conditions.Nodup) :
    nodeUnavailableWeight n = if specUnavailable n then 1 else 0 := by
  by_cases hr : nodeIsRebooting n
  · have : specUnavailable n = true := by
      rcases (nodeIsRebooting_iff n).mp hr with h1 | h1 <;>
        simp [specUnavailable, h1]
    simp [nodeUnavailableWeight, hr, this]
  · have hrr : nodeHasKey n rebootInProgressKey = false ∧ nodeHasKey n rebootKey = false := by
      constructor <;>
        · rw [Bool.eq_false_iff]
          intro hx
          exact hr ((nodeIsRebooting_iff n).mpr (by tauto))
    by_cases hc : n.conditions.any
        (fun c => c.condType == nodeReadyCond && c.status == conditionFalse)
    · have hspec : specUnavailable n = true := by simp [specUnavailable, hc]
      have hlen : notReadyConditionCount n = 1 := by
        have hle : (n.conditions.filter
            (fun c => c.condType == nodeReadyCond && c.status == conditionFalse)).length ≤ 1 := by
          apply length_le_one_of_nodup_const (c := ⟨nodeReadyCond, conditionFalse⟩)
          · exact h.filter _
          · intro x hx
            have := (List.mem_filter.mp hx).2
            simp only [Bool.and_eq_true, beq_iff_eq] at this
            cases x
            simp_all
        have hpos : 0 < (n.conditions.filter
            (fun c => c.condType == nodeReadyCond && c.status == conditionFalse)).length := by
          rw [List.any_eq_true] at hc
          rcases hc with ⟨x, hx, hpx⟩
          exact List.length_pos.mpr (List.ne_nil_of_mem (List.mem_filter.mpr ⟨hx, hpx⟩))
        unfold notReadyConditionCount
        omega
      simp [nodeUnavailableWeight, hr, hspec, hlen]
    · have hspec : specUnavailable n = false := by
        simp only [specUnavailable, hrr.1, hrr.2, Bool.or_eq_true, Bool.or_eq_false_iff]
        simp only [Bool.eq_false_iff] at hc ⊢
        exact ⟨⟨by simp, by simp⟩, hc⟩
      have hlen : notReadyConditionCount n = 0 := by
        unfold notReadyConditionCount
        rw [List.length_eq_zero, List.filter_eq_nil_iff]
        intro x hx
        rw [Bool.not_eq_true]
        rw [Bool.eq_false_iff]
        intro hpx
        exact hc (List.any_eq_true.mpr ⟨x, hx, hpx⟩)
      simp [nodeUnavailableWeight, hr, hspec, hlen]

lemma count_eq_countP (l : List Node) (h : ∀ n ∈ l, n.conditions.Nodup) :
    unavailableNodeCount l = l.countP (fun n => specUnavailable n) := by
  induction l with
  | nil => simp [unavailableNodeCount]
  | cons x xs ih =>
      have hx := weight_eq_of_nodup x (h x (by simp))
      have hxs := ih (fun n hn => h n (by simp [hn]))
      rw [unavailableNodeCount_eq_sum] at hxs ⊢
      rw [List.map_cons, List.sum_cons, List.countP_cons, hxs, hx]
      by_cases hs : specUnavailable x <;> simp [hs, Nat.add_comm]

/-! Helper lemmas about the controller handler. -/

lemma handler_node_eq (dc : Bool) (node : Node) (s : List Node) :
    handler dc (Obj.node node) s = handlerNode dc node s := rfl

lemma handler_skip_of_capacity (dc : Bool) (node : Node) (s : List Node)
    (h : maxUnavailable ≤ unavailableNodeCount s) :
    handler dc (Obj.node node) s = CtrlOutcome.skip := by
  rw [handler_node_eq]
  unfold handlerNode
  cases hn : node.annotations with
  | none => rfl
  | some anns =>
      by_cases hk : hasKey anns rebootNeededKey
      · simp [hk, h]
      · simp [hk]

lemma handler_update_of (node : Node) (s : List Node) (anns : AnnMap)
    (hn : node.annotations = some anns) (hk : hasKey anns rebootNeededKey = true)
    (hcap : unavailableNodeCount s < maxUnavailable) :
    handler true (Obj.node node) s
      = CtrlOutcome.update (setAnnN (normalizeNode node) rebootKey "") := by
  rw [handler_node_eq]
  unfold handlerNode
  rw [hn]
  simp [hk, Nat.not_le.mpr hcap, CopyObjToNode]

lemma handler_update_inv {dc : Bool} {node : Node} {s : List Node} {n' : Node}
    (h : handler dc (Obj.node node) s = CtrlOutcome.update n') :
    dc = true ∧ nodeHasKey node rebootNeededKey = true ∧
      unavailableNodeCount s < maxUnavailable ∧
      n' = setAnnN (normalizeNode node) rebootKey "" := by
  rw [handler_node_eq] at h
  unfold handlerNode at h
  cases hn : node.annotations with
  | none => rw [hn] at h; exact absurd h (by simp)
  | some anns =>
      rw [hn] at h
      by_cases hk : hasKey anns rebootNeededKey
      · by_cases hcap : maxUnavailable ≤ unavailableNodeCount s
        · simp [hk, hcap] at h
        · cases dc with
          | false => simp [hk, hcap, CopyObjToNode] at h
          | true =>
              simp only [hk, hcap, CopyObjToNode, Bool.not_true, if_false,
                if_true, ite_true, ite_false] at h
              refine ⟨rfl, by simp [nodeHasKey, hn, hk], Nat.not_le.mp hcap, ?_⟩
              cases h
              rfl
      · simp [hk] at h

/-! Helper lemmas about the agent handler. -/

lemma agentRebootPayload_markers (node : Node) :
    nodeHasKey (agentRebootPayload node) rebootInProgressKey = true ∧
    nodeHasKey (agentRebootPayload node) rebootNeededKey = false ∧
    nodeHasKey (agentRebootPayload node) rebootKey = false := by
  unfold agentRebootPayload
  refine ⟨?_, ?_, ?_⟩
  · refine (nodeHasKey_delAnnN_iff _ _ _).mpr ⟨by decide, ?_⟩
    refine (nodeHasKey_delAnnN_iff _ _ _).mpr ⟨by decide, ?_⟩
    exact (nodeHasKey_setAnnN_iff _ _ _ _).mpr (Or.inl rfl)
  · rw [Bool.eq_false_iff]
    intro h
    have h1 := ((nodeHasKey_delAnnN_iff _ _ _).mp h).2
    exact ((nodeHasKey_delAnnN_iff _ _ _).mp h1).1 rfl
  · rw [Bool.eq_false_iff]
    intro h
    exact ((nodeHasKey_delAnnN_iff _ _ _).mp h).1 rfl

lemma handleUpdate_cases (dc uo : Bool) (obj : Obj) :
    handleUpdate dc uo obj = AgentOutcome.crash ∨
    handleUpdate dc uo obj = AgentOutcome.ran [] ∨
    (∃ node, CopyObjToNode dc obj = CopyOutcome.ok node ∧ shouldReboot node = true ∧
      ((uo = true ∧ handleUpdate dc uo obj = AgentOutcome.ran
          [AgentEvent.updateCall (agentRebootPayload node), AgentEvent.rebootCall]) ∨
       (uo = false ∧ handleUpdate dc uo obj = AgentOutcome.ran
          [AgentEvent.updateCall (agentRebootPayload node)]))) ∨
    (∃ node, CopyObjToNode dc obj = CopyOutcome.ok node ∧ shouldReboot node = false ∧
      rebootInProgress node = true ∧ handleUpdate dc uo obj = AgentOutcome.ran
        [AgentEvent.updateCall (delAnnN node rebootInProgressKey)]) := by
  cases hc : CopyObjToNode dc obj with
  | panicked => exact Or.inl (by unfold handleUpdate; rw [hc])
  | copyErr => exact Or.inr (Or.inl (by unfold handleUpdate; rw [hc]))
  | ok node =>
      by_cases hs : shouldReboot node
      · cases uo with
        | true =>
            refine Or.inr (Or.inr (Or.inl ⟨node, rfl, hs, Or.inl ⟨rfl, ?_⟩⟩))
            unfold handleUpdate
            rw [hc]
            simp [hs]
        | false =>
            refine Or.inr (Or.inr (Or.inl ⟨node, rfl, hs, Or.inr ⟨rfl, ?_⟩⟩))
            unfold handleUpdate
            rw [hc]
            simp [hs]
      · by_cases hip : rebootInProgress node
        · refine Or.inr (Or.inr (Or.inr ⟨node, rfl, by simpa using hs, hip, ?_⟩))
          unfold handleUpdate
          rw [hc]
          simp [hs, hip]
        · refine Or.inr (Or.inl ?_)
          unfold handleUpdate
          rw [hc]
          simp [hs, hip]

lemma nodeHasKey_setAnnN_self (n : Node) (k v : String) :
    nodeHasKey (setAnnN n k v) k = true :=
  (nodeHasKey_setAnnN_iff n k v k).mpr (Or.inl rfl)

lemma nodeHasKey_delAnnN_self (n : Node) (k : String) :
    nodeHasKey (delAnnN n k) k = false := by
  rw [Bool.eq_false_iff]
  intro hx
  exact ((nodeHasKey_delAnnN_iff n k k).mp hx).1 rfl

lemma nodeHasKey_setAnnN_other (n : Node) {k k' : String} (v : String) (hne : k' ≠ k) :
    nodeHasKey (setAnnN n k v) k' = nodeHasKey n k' := by
  cases hb : nodeHasKey n k' with
  | true => exact (nodeHasKey_setAnnN_iff n k v k').mpr (Or.inr hb)
  | false =>
      rw [Bool.eq_false_iff]
      intro hx
      rcases (nodeHasKey_setAnnN_iff n k v k').mp hx with h | h
      · exact hne h
      · rw [hb] at h
        cases h

lemma nodeHasKey_delAnnN_other (n : Node) {k k' : String} (hne : k' ≠ k) :
    nodeHasKey (delAnnN n k) k' = nodeHasKey n k' := by
  cases hb : nodeHasKey n k' with
  | true => exact (nodeHasKey_delAnnN_iff n k k').mpr ⟨hne, hb⟩
  | false =>
      rw [Bool.eq_false_iff]
      intro hx
      have h := ((nodeHasKey_delAnnN_iff n k k').mp hx).2
      rw [hb] at h
      cases h

lemma handleUpdate_crash_inv {dc uo : Bool} {obj : Obj}
    (h : handleUpdate dc uo obj = AgentOutcome.crash) :
    CopyObjToNode dc obj = CopyOutcome.panicked := by
  unfold handleUpdate at h
  cases hc : CopyObjToNode dc obj with
  | panicked => rfl
  | copyErr => rw [hc] at h; cases h
  | ok node =>
      rw [hc] at h
      by_cases hs : shouldReboot node
      · cases uo <;> simp [hs] at h
      · by_cases hip : rebootInProgress node <;> simp [hs, hip] at h

lemma handler_node_no_crash (dc : Bool) (node : Node) (s : List Node) :
    handler dc (Obj.node node) s = CtrlOutcome.crash → False := by
  intro h
  rw [handler_node_eq] at h
  unfold handlerNode at h
  cases hn : node.annotations with
  | none => rw [hn] at h; cases h
  | some anns =>
      rw [hn] at h
      by_cases hk : hasKey anns rebootNeededKey
      · by_cases hcap : maxUnavailable ≤ unavailableNodeCount s
        · simp [hk, hcap] at h
        · cases dc <;> simp [hk, hcap, CopyObjToNode] at h
      · simp [hk] at h

/-! The claims. -/

/-- Claim C1: for every cache snapshot reached by any sequence of
add/update/delete events, unavailableNodeCount equals the number of nodes
that carry reboot-in-progress, or carry reboot, or report a NodeReady
condition with status False (node conditions being duplicate-free, per the
data model's ordered set of pairs), and the count is a pure function of the
snapshot: any two event sequences whose snapshots agree up to ordering give
the same count. -/
theorem C1_count_pure_function_of_snapshot (es₁ es₂ : List NodeEvent) (s₀ : Store)
    (hperm : (storeList (applyEvents es₁ s₀)).Perm (storeList (applyEvents es₂ s₀)))
    (hnd : ∀ n ∈ storeList (applyEvents es₁ s₀), n.conditions.Nodup) :
    unavailableNodeCount (storeList (applyEvents es₁ s₀))
        = (storeList (applyEvents es₁ s₀)).countP (fun n => specUnavailable n) ∧
    unavailableNodeCount (storeList (applyEvents es₁ s₀))
        = unavailableNodeCount (storeList (applyEvents es₂ s₀)) :=
  ⟨count_eq_countP _ hnd, unavailableNodeCount_perm hperm⟩

/-- Witness for C1 at two event orders producing the same two-node snapshot. -/
theorem C1_witness :
    unavailableNodeCount (storeList (applyEvents
        [NodeEvent.add ⟨"a", some [(rebootKey, "")], []⟩,
         NodeEvent.add ⟨"b", some [(rebootNeededKey, "")], [⟨"Ready", "False"⟩]⟩] []))
      = (storeList (applyEvents
        [NodeEvent.add ⟨"a", some [(rebootKey, "")], []⟩,
         NodeEvent.add ⟨"b", some [(rebootNeededKey, "")], [⟨"Ready", "False"⟩]⟩] [])).countP
          (fun n => specUnavailable n) ∧
    unavailableNodeCount (storeList (applyEvents
        [NodeEvent.add ⟨"a", some [(rebootKey, "")], []⟩,
         NodeEvent.add ⟨"b", some [(rebootNeededKey, "")], [⟨"Ready", "False"⟩]⟩] []))
      = unavailableNodeCount (storeList (applyEvents
        [NodeEvent.add ⟨"b", some [(rebootNeededKey, "")], [⟨"Ready", "False"⟩]⟩,
         NodeEvent.add ⟨"a", some [(rebootKey, "")], []⟩] [])) :=
  C1_count_pure_function_of_snapshot _ _ [] (by decide) (by decide)

/-- Claim C2: on a node carrying needs-reboot, when the snapshot's
unavailable count is at least maxUnavailable the controller handler returns
without issuing any update, so the node is never given the reboot
annotation in such a snapshot. -/
theorem C2_no_approval_at_capacity (dc : Bool) (node : Node) (s : List Node)
    (hneed : nodeHasKey node rebootNeededKey = true)
    (hcap : maxUnavailable ≤ unavailableNodeCount s) :
    handler dc (Obj.node node) s = CtrlOutcome.skip :=
  handler_skip_of_capacity dc node s hcap

/-- Witness for C2: a needs-reboot node is skipped while another node holds
the reboot annotation. -/
theorem C2_witness :
    handler true (Obj.node ⟨"b", some [(rebootNeededKey, "")], []⟩)
        [⟨"a", some [(rebootKey, "")], []⟩] = CtrlOutcome.skip :=
  C2_no_approval_at_capacity true ⟨"b", some [(rebootNeededKey, "")], []⟩
    [⟨"a", some [(rebootKey, "")], []⟩] (by decide) (by decide)

/-- Claim C9: with maxUnavailable = 1, while node A holds the reboot
annotation (not yet in progress) and is in the snapshot, the unavailable
count is at least 1, so the controller handler denies node B's needs-reboot
request (no update issued). -/
theorem C9_approved_node_blocks_others (dc : Bool) (a b : Node) (s : List Node)
    (ha : a ∈ s) (haR : nodeHasKey a rebootKey = true)
    (haP : nodeHasKey a rebootInProgressKey = false)
    (hbN : nodeHasKey b rebootNeededKey = true) :
    1 ≤ unavailableNodeCount s ∧ handler dc (Obj.node b) s = CtrlOutcome.skip := by
  have hreb : nodeIsRebooting a = true := (nodeIsRebooting_iff a).mpr (Or.inr haR)
  have hw : nodeUnavailableWeight a = 1 := by simp [nodeUnavailableWeight, hreb]
  have hone : 1 ≤ unavailableNodeCount s := by
    have := weight_le_count ha
    omega
  exact ⟨hone, handler_skip_of_capacity dc b s hone⟩

/-- Witness for C9 with concrete nodes A (approved) and B (pending). -/
theorem C9_witness :
    1 ≤ unavailableNodeCount
        [⟨"A", some [(rebootKey, "")], []⟩, ⟨"B", some [(rebootNeededKey, "")], []⟩] ∧
    handler true (Obj.node ⟨"B", some [(rebootNeededKey, "")], []⟩)
        [⟨"A", some [(rebootKey, "")], []⟩, ⟨"B", some [(rebootNeededKey, "")], []⟩]
      = CtrlOutcome.skip :=
  C9_approved_node_blocks_others true ⟨"A", some [(rebootKey, "")], []⟩
    ⟨"B", some [(rebootNeededKey, "")], []⟩ _
    (by decide) (by decide) (by decide) (by decide)

/-- Claim C10: a successful CopyObjToNode always returns a node with a
non-nil annotation map, so a subsequent annotation write on the copy is
well-defined and takes effect. -/
theorem C10_copy_has_nonnil_annotations (dc : Bool) (obj : Obj) (n : Node)
    (h : CopyObjToNode dc obj = CopyOutcome.ok n) :
    (∃ m, n.annotations = some m) ∧ ∀ k v, nodeHasKey (setAnnN n k v) k = true := by
  cases obj with
  | other => simp [CopyObjToNode] at h
  | node n₀ =>
      cases dc with
      | false => simp [CopyObjToNode] at h
      | true =>
          simp only [CopyObjToNode, if_true, ite_true] at h
          cases h
          exact ⟨⟨n₀.annotations.getD [], rfl⟩, fun k v => nodeHasKey_setAnnN_self _ k v⟩

/-- Witness for C10 on a node whose annotation map is nil. -/
theorem C10_witness :
    (∃ m, (Node.mk "a" (some []) []).annotations = some m) ∧
    ∀ k v, nodeHasKey (setAnnN (Node.mk "a" (some []) []) k v) k = true :=
  C10_copy_has_nonnil_annotations true (Obj.node ⟨"a", none, []⟩) ⟨"a", some [], []⟩
    (by decide)

/-- Claim C3: no controller or agent transition produces a node whose
annotation set contains both reboot and reboot-in-progress: every update
payload the controller emits for a node present in its snapshot is legal,
and every update payload the agent emits is legal. -/
theorem C3_never_reboot_and_in_progress :
    (∀ dc node s n', node ∈ s → legalNode node →
        handler dc (Obj.node node) s = CtrlOutcome.update n' → legalNode n') ∧
    (∀ dc uo obj n',
        AgentEvent.updateCall n' ∈ outcomeEvents (handleUpdate dc uo obj) →
        legalNode n') := by
  constructor
  · intro dc node s n' hmem _hleg hup
    obtain ⟨_hdc, _hneed, hcap, hn'⟩ := handler_update_inv hup
    have hcount : unavailableNodeCount s = 0 := by
      unfold maxUnavailable at hcap
      omega
    have hw : nodeUnavailableWeight node = 0 := by
      have := weight_le_count hmem
      omega
    have hreb : ¬ nodeIsRebooting node = true := by
      intro hr
      simp [nodeUnavailableWeight, hr] at hw
    have hip : nodeHasKey node rebootInProgressKey = false := by
      rw [Bool.eq_false_iff]
      intro hx
      exact hreb ((nodeIsRebooting_iff node).mpr (Or.inl hx))
    rintro ⟨_hcl1, hcl2⟩
    rw [hn'] at hcl2
    rcases (nodeHasKey_setAnnN_iff _ _ _ _).mp hcl2 with h | h
    · exact absurd h (by decide)
    · rw [nodeHasKey_normalizeNode] at h
      rw [hip] at h
      cases h
  · intro dc uo obj n' hmem
    rcases handleUpdate_cases dc uo obj with hc | hc | ⟨node, _hcopy, _hs, hcase⟩ |
        ⟨node, _hcopy, _hs, _hip, hc⟩
    · rw [hc] at hmem
      simp [outcomeEvents] at hmem
    · rw [hc] at hmem
      simp [outcomeEvents] at hmem
    · have hpay : n' = agentRebootPayload node := by
        rcases hcase with ⟨_, hc⟩ | ⟨_, hc⟩ <;>
          · rw [hc] at hmem
            simpa [outcomeEvents] using hmem
      rintro ⟨hcl1, _hcl2⟩
      rw [hpay] at hcl1
      rw [(agentRebootPayload_markers node).2.2] at hcl1
      cases hcl1
    · have hpay : n' = delAnnN node rebootInProgressKey := by
        rw [hc] at hmem
        simpa [outcomeEvents] using hmem
      rintro ⟨_hcl1, hcl2⟩
      rw [hpay] at hcl2
      rw [nodeHasKey_delAnnN_self] at hcl2
      cases hcl2

/-- Witness for C3: the controller approving a pending node in a one-node
snapshot emits a legal payload. -/
theorem C3_witness :
    legalNode ⟨"a", some [(rebootKey, ""), (rebootNeededKey, "")], []⟩ :=
  C3_never_reboot_and_in_progress.1 true ⟨"a", some [(rebootNeededKey, "")], []⟩
    [⟨"a", some [(rebootNeededKey, "")], []⟩]
    ⟨"a", some [(rebootKey, ""), (rebootNeededKey, "")], []⟩
    (by decide) (by decide) (by decide)

/-- Claim C4: the agent's reboot call happens only after the update that
records reboot-in-progress (clearing needs-reboot and reboot) has succeeded;
the trace is exactly that update followed by the reboot, and a failed update
never leads to a reboot call. -/
theorem C4_reboot_only_after_durable_update (dc uo : Bool) (obj : Obj)
    (h : AgentEvent.rebootCall ∈ outcomeEvents (handleUpdate dc uo obj)) :
    uo = true ∧ ∃ n', handleUpdate dc uo obj
        = AgentOutcome.ran [AgentEvent.updateCall n', AgentEvent.rebootCall] ∧
      nodeHasKey n' rebootInProgressKey = true ∧
      nodeHasKey n' rebootNeededKey = false ∧
      nodeHasKey n' rebootKey = false := by
  rcases handleUpdate_cases dc uo obj with hc | hc | ⟨node, _hcopy, _hs, hcase⟩ |
      ⟨node, _hcopy, _hs, _hip, hc⟩
  · rw [hc] at h
    simp [outcomeEvents] at h
  · rw [hc] at h
    simp [outcomeEvents] at h
  · rcases hcase with ⟨huo, hc⟩ | ⟨_huo, hc⟩
    · exact ⟨huo, agentRebootPayload node, hc, (agentRebootPayload_markers node).1,
        (agentRebootPayload_markers node).2.1, (agentRebootPayload_markers node).2.2⟩
    · rw [hc] at h
      simp [outcomeEvents] at h
  · rw [hc] at h
    simp [outcomeEvents] at h

/-- Witness for C4 on an approved node whose update succeeds. -/
theorem C4_witness :
    (true : Bool) = true ∧ ∃ n',
      handleUpdate true true (Obj.node ⟨"a", some [(rebootKey, "")], []⟩)
        = AgentOutcome.ran [AgentEvent.updateCall n', AgentEvent.rebootCall] ∧
      nodeHasKey n' rebootInProgressKey = true ∧
      nodeHasKey n' rebootNeededKey = false ∧
      nodeHasKey n' rebootKey = false :=
  C4_reboot_only_after_durable_update true true
    (Obj.node ⟨"a", some [(rebootKey, "")], []⟩) (by decide)

/-- Claim C5 counterexample: an event whose object is not the expected Node
type crashes both handlers through the unchecked type assertion, so the
claim that every malformed event is logged and skipped without a crash is
false. -/
theorem C5_counterexample :
    handler true Obj.other [] = CtrlOutcome.crash ∧
    handleUpdate true true Obj.other = AgentOutcome.crash :=
  ⟨rfl, rfl⟩

/-- Claim C5 amended: on Node-typed objects the handlers never crash — in
particular a failed deep copy in the agent is logged and the event skipped
with no update issued — but an object that is not the expected Node type
panics in both handlers via the unchecked type assertion. -/
theorem C5_malformed_objects_handling :
    (∀ uo n, handleUpdate false uo (Obj.node n) = AgentOutcome.ran []) ∧
    (∀ dc node s, handler dc (Obj.node node) s = CtrlOutcome.skip ∨
        ∃ n', handler dc (Obj.node node) s = CtrlOutcome.update n') ∧
    (∀ dc uo n, ∃ es, handleUpdate dc uo (Obj.node n) = AgentOutcome.ran es) ∧
    (∀ dc s, handler dc Obj.other s = CtrlOutcome.crash) ∧
    (∀ dc uo, handleUpdate dc uo Obj.other = AgentOutcome.crash) := by
  refine ⟨fun uo n => rfl, ?_, ?_, fun dc s => rfl, fun dc uo => rfl⟩
  · intro dc node s
    cases hout : handler dc (Obj.node node) s with
    | crash => exact absurd hout (fun hc => handler_node_no_crash dc node s hc)
    | skip => exact Or.inl rfl
    | update n' => exact Or.inr ⟨n', rfl⟩
  · intro dc uo n
    cases hout : handleUpdate dc uo (Obj.node n) with
    | crash =>
        exfalso
        have := handleUpdate_crash_inv hout
        cases dc <;> simp [CopyObjToNode] at this
    | ran es => exact ⟨es, rfl⟩

/-- Claim C6: a node carrying none of needs-reboot, reboot or
reboot-in-progress is a no-op for both handlers on re-delivery: the
controller skips and the agent issues no external call, so the node's
annotations are unchanged. -/
theorem C6_resync_of_idle_node_is_noop (dc uo : Bool) (node : Node) (s : List Node)
    (h1 : nodeHasKey node rebootNeededKey = false)
    (h2 : nodeHasKey node rebootKey = false)
    (h3 : nodeHasKey node rebootInProgressKey = false) :
    handler dc (Obj.node node) s = CtrlOutcome.skip ∧
    handleUpdate dc uo (Obj.node node) = AgentOutcome.ran [] := by
  constructor
  · rw [handler_node_eq]
    unfold handlerNode
    cases hn : node.annotations with
    | none => rfl
    | some anns =>
        have hk : hasKey anns rebootNeededKey = false := by
          have h := h1
          unfold nodeHasKey at h
          rw [hn] at h
          exact h
        simp [hk]
  · cases dc with
    | false => rfl
    | true =>
        unfold handleUpdate
        have hs : shouldReboot (normalizeNode node) = false := by
          simp [shouldReboot, nodeHasKey_normalizeNode, h2]
        have hip : rebootInProgress (normalizeNode node) = false := by
          simp [rebootInProgress, nodeHasKey_normalizeNode, h3]
        simp [CopyObjToNode, hs, hip]

/-- Witness for C6 on a node with an unrelated annotation. -/
theorem C6_witness :
    handler true (Obj.node ⟨"a", some [("color", "blue")], []⟩) []
      = CtrlOutcome.skip ∧
    handleUpdate true true (Obj.node ⟨"a", some [("color", "blue")], []⟩)
      = AgentOutcome.ran [] :=
  C6_resync_of_idle_node_is_noop true true ⟨"a", some [("color", "blue")], []⟩ []
    (by decide) (by decide) (by decide)

/-- Claim C7: the annotation round trip. A node with needs-reboot set (and
neither reboot nor reboot-in-progress), evaluated by the controller with
capacity available, is updated to carry exactly needs-reboot and reboot
(needs-reboot is not cleared by the controller); the agent's first
qualifying update leaves exactly reboot-in-progress, and a subsequent agent
update observing the in-progress marker leaves a node carrying none of the
three markers. -/
theorem C7_round_trip (n₀ : Node) (s : List Node)
    (h1 : nodeHasKey n₀ rebootNeededKey = true)
    (h2 : nodeHasKey n₀ rebootKey = false)
    (h3 : nodeHasKey n₀ rebootInProgressKey = false)
    (hcap : unavailableNodeCount s < maxUnavailable) :
    ∃ n₁ n₂ n₃,
      handler true (Obj.node n₀) s = CtrlOutcome.update n₁ ∧
      nodeHasKey n₁ rebootNeededKey = true ∧
      nodeHasKey n₁ rebootKey = true ∧
      nodeHasKey n₁ rebootInProgressKey = false ∧
      handleUpdate true true (Obj.node n₁)
        = AgentOutcome.ran [AgentEvent.updateCall n₂, AgentEvent.rebootCall] ∧
      nodeHasKey n₂ rebootNeededKey = false ∧
      nodeHasKey n₂ rebootKey = false ∧
      nodeHasKey n₂ rebootInProgressKey = true ∧
      handleUpdate true true (Obj.node n₂)
        = AgentOutcome.ran [AgentEvent.updateCall n₃] ∧
      nodeHasKey n₃ rebootNeededKey = false ∧
      nodeHasKey n₃ rebootKey = false ∧
      nodeHasKey n₃ rebootInProgressKey = false := by
  have hneNR : rebootNeededKey ≠ rebootKey := by decide
  have hneNP : rebootNeededKey ≠ rebootInProgressKey := by decide
  have hneRP : rebootKey ≠ rebootInProgressKey := by decide
  have hnePR : rebootInProgressKey ≠ rebootKey := by decide
  obtain ⟨anns, hn⟩ : ∃ anns, n₀.annotations = some anns := by
    cases hn : n₀.annotations with
    | none =>
        exfalso
        have h := h1
        unfold nodeHasKey at h
        rw [hn] at h
        cases h
    | some anns => exact ⟨anns, rfl⟩
  have hk : hasKey anns rebootNeededKey = true := by
    have h := h1
    unfold nodeHasKey at h
    rw [hn] at h
    exact h
  have m1needed : nodeHasKey (setAnnN (normalizeNode n₀) rebootKey "")
      rebootNeededKey = true := by
    rw [nodeHasKey_setAnnN_other _ "" hneNR, nodeHasKey_normalizeNode]
    exact h1
  have m1reboot : nodeHasKey (setAnnN (normalizeNode n₀) rebootKey "")
      rebootKey = true := nodeHasKey_setAnnN_self _ _ _
  have m1ip : nodeHasKey (setAnnN (normalizeNode n₀) rebootKey "")
      rebootInProgressKey = false := by
    rw [nodeHasKey_setAnnN_other _ "" hnePR, nodeHasKey_normalizeNode]
    exact h3
  have hsr1 : shouldReboot (normalizeNode (setAnnN (normalizeNode n₀) rebootKey ""))
      = true := by
    simp [shouldReboot, nodeHasKey_normalizeNode, m1reboot, m1ip]
  have st2 : handleUpdate true true (Obj.node (setAnnN (normalizeNode n₀) rebootKey ""))
      = AgentOutcome.ran
        [AgentEvent.updateCall
          (agentRebootPayload (normalizeNode (setAnnN (normalizeNode n₀) rebootKey ""))),
         AgentEvent.rebootCall] := by
    unfold handleUpdate
    simp [CopyObjToNode, hsr1]
  obtain ⟨m2ip, m2needed, m2reboot⟩ :=
    agentRebootPayload_markers (normalizeNode (setAnnN (normalizeNode n₀) rebootKey ""))
  have hsr2 : shouldReboot (normalizeNode
      (agentRebootPayload (normalizeNode (setAnnN (normalizeNode n₀) rebootKey ""))))
      = false := by
    simp [shouldReboot, nodeHasKey_normalizeNode, m2reboot]
  have hip2 : rebootInProgress (normalizeNode
      (agentRebootPayload (normalizeNode (setAnnN (normalizeNode n₀) rebootKey ""))))
      = true := by
    simp [rebootInProgress, nodeHasKey_normalizeNode, m2ip]
  have st3 : handleUpdate true true (Obj.node
      (agentRebootPayload (normalizeNode (setAnnN (normalizeNode n₀) rebootKey ""))))
      = AgentOutcome.ran [AgentEvent.updateCall (delAnnN (normalizeNode
          (agentRebootPayload (normalizeNode (setAnnN (normalizeNode n₀) rebootKey ""))))
          rebootInProgressKey)] := by
    unfold handleUpdate
    simp [CopyObjToNode, hsr2, hip2]
  have m3needed : nodeHasKey (delAnnN (normalizeNode
      (agentRebootPayload (normalizeNode (setAnnN (normalizeNode n₀) rebootKey ""))))
      rebootInProgressKey) rebootNeededKey = false := by
    rw [nodeHasKey_delAnnN_other _ hneNP, nodeHasKey_normalizeNode]
    exact m2needed
  have m3reboot : nodeHasKey (delAnnN (normalizeNode
      (agentRebootPayload (normalizeNode (setAnnN (normalizeNode n₀) rebootKey ""))))
      rebootInProgressKey) rebootKey = false := by
    rw [nodeHasKey_delAnnN_other _ hneRP, nodeHasKey_normalizeNode]
    exact m2reboot
  exact ⟨setAnnN (normalizeNode n₀) rebootKey "",
    agentRebootPayload (normalizeNode (setAnnN (normalizeNode n₀) rebootKey "")),
    delAnnN (normalizeNode
      (agentRebootPayload (normalizeNode (setAnnN (normalizeNode n₀) rebootKey ""))))
      rebootInProgressKey,
    handler_update_of n₀ s anns hn hk hcap, m1needed, m1reboot, m1ip,
    st2, m2needed, m2reboot, m2ip, st3, m3needed, m3reboot,
    nodeHasKey_delAnnN_self _ _⟩

/-- Witness for C7 from a concrete pending node in an empty snapshot. -/
theorem C7_witness :
    ∃ n₁ n₂ n₃,
      handler true (Obj.node ⟨"a", some [(rebootNeededKey, "")], []⟩) []
        = CtrlOutcome.update n₁ ∧
      nodeHasKey n₁ rebootNeededKey = true ∧
      nodeHasKey n₁ rebootKey = true ∧
      nodeHasKey n₁ rebootInProgressKey = false ∧
      handleUpdate true true (Obj.node n₁)
        = AgentOutcome.ran [AgentEvent.updateCall n₂, AgentEvent.rebootCall] ∧
      nodeHasKey n₂ rebootNeededKey = false ∧
      nodeHasKey n₂ rebootKey = false ∧
      nodeHasKey n₂ rebootInProgressKey = true ∧
      handleUpdate true true (Obj.node n₂)
        = AgentOutcome.ran [AgentEvent.updateCall n₃] ∧
      nodeHasKey n₃ rebootNeededKey = false ∧
      nodeHasKey n₃ rebootKey = false ∧
      nodeHasKey n₃ rebootInProgressKey = false :=
  C7_round_trip ⟨"a", some [(rebootNeededKey, "")], []⟩ []
    (by decide) (by decide) (by decide) (by decide)

/-- Claim C8: annotation writes happen only on the private copy: the copy
produced by CopyObjToNode agrees with the original node on every field
(with a nil annotation map becoming the empty map), and every update
payload the controller or agent emits is an annotation edit of that copy,
never of the cached object itself. -/
theorem C8_updates_built_from_private_copy :
    (∀ dc n₀ n, CopyObjToNode dc (Obj.node n₀) = CopyOutcome.ok n →
        n.name = n₀.name ∧ n.conditions = n₀.conditions ∧
        n.annotations = some (n₀.annotations.getD [])) ∧
    (∀ dc node s n', handler dc (Obj.node node) s = CtrlOutcome.update n' →
        ∃ nodeCopy, CopyObjToNode dc (Obj.node node) = CopyOutcome.ok nodeCopy ∧
          n' = setAnnN nodeCopy rebootKey "") ∧
    (∀ dc uo obj n', AgentEvent.updateCall n' ∈ outcomeEvents (handleUpdate dc uo obj) →
        ∃ nodeCopy, CopyObjToNode dc obj = CopyOutcome.ok nodeCopy ∧
          (n' = agentRebootPayload nodeCopy ∨
           n' = delAnnN nodeCopy rebootInProgressKey)) := by
  refine ⟨?_, ?_, ?_⟩
  · intro dc n₀ n h
    cases dc with
    | false => simp [CopyObjToNode] at h
    | true =>
        simp only [CopyObjToNode, if_true, ite_true] at h
        cases h
        exact ⟨rfl, rfl, rfl⟩
  · intro dc node s n' hup
    obtain ⟨hdc, _, _, hn'⟩ := handler_update_inv hup
    subst hdc
    exact ⟨normalizeNode node, rfl, hn'⟩
  · intro dc uo obj n' hmem
    rcases handleUpdate_cases dc uo obj with hc | hc | ⟨node, hcopy, _hs, hcase⟩ |
        ⟨node, hcopy, _hs, _hip, hc⟩
    · rw [hc] at hmem
      simp [outcomeEvents] at hmem
    · rw [hc] at hmem
      simp [outcomeEvents] at hmem
    · have hpay : n' = agentRebootPayload node := by
        rcases hcase with ⟨_, hc⟩ | ⟨_, hc⟩ <;>
          · rw [hc] at hmem
            simpa [outcomeEvents] using hmem
      exact ⟨node, hcopy, Or.inl hpay⟩
    · have hpay : n' = delAnnN node rebootInProgressKey := by
        rw [hc] at hmem
        simpa [outcomeEvents] using hmem
      exact ⟨node, hcopy, Or.inr hpay⟩

/-- Witness for C8: the payload of a concrete controller approval is the
reboot edit of the CopyObjToNode copy. -/
theorem C8_witness :
    ∃ nodeCopy, CopyObjToNode true (Obj.node ⟨"a", some [(rebootNeededKey, "")], []⟩)
        = CopyOutcome.ok nodeCopy ∧
      (⟨"a", some [(rebootKey, ""), (rebootNeededKey, "")], []⟩ : Node)
        = setAnnN nodeCopy rebootKey "" :=
  C8_updates_built_from_private_copy.2.1 true ⟨"a", some [(rebootNeededKey, "")], []⟩ []
    ⟨"a", some [(rebootKey, ""), (rebootNeededKey, "")], []⟩ (by decide)

end RebootDemo
